import Mathlib

/-!
Verification of the AsyncButton debounce / gesture-classification library
(AsyncButton.cpp / AsyncButton.h).

Shallow embedding conventions:
* `unsigned long` (the millisecond clock type) is modelled as `Nat` with all
  subtractions performed modulo `UMOD = 2^32`, the word size of `unsigned long`
  on the 32-bit Arduino targets the library is written for; `wsub` is C's
  unsigned subtraction.
* Raw pin levels: `PRESSED = LOW = 0`, `RELEASED = HIGH = 1`, as in the
  header's `#define PRESSED LOW` / `#define RELEASED HIGH`.
* The registry (`Current->buttons`, an array of `State`) is a `List BState`;
  the `State *mappedState` pointer becomes an `Option Nat` index into that
  list, and `getState` returns the index of the first record with the pin.
* The long-press callback is modelled by a Bool `hcb` ("a callback is
  registered"); each poll step additionally reports whether the callback
  fired, so invocation counts are observable.
* `digitalRead` is an input valuation `input : Nat → Nat` from pin to level;
  `millis()` is a `now : Nat` parameter (time does not advance inside one
  call).
-/

/-- Word modulus of `unsigned long` (32 bits). -/
def UMOD : Nat := 4294967296

/-- C unsigned subtraction `a - b` at width 32: `(a - b) mod 2^32`. -/
def wsub (a b : Nat) : Nat := (a + (UMOD - b % UMOD)) % UMOD

/-- Raw level of a pressed button (`#define PRESSED LOW`). -/
def PRESSED : Nat := 0

/-- Raw level of a released button (`#define RELEASED HIGH`). -/
def RELEASED : Nat := 1

/-- Default debounce window in ms (`BUTTON_DEBOUNCE_TIME`). -/
def BUTTON_DEBOUNCE_TIME : Nat := 50

/-- Default double-click window in ms (`BUTTON_DOUBLECLICK_TIME`). -/
def BUTTON_DOUBLECLICK_TIME : Nat := 400

/-- Default long-press window in ms (`BUTTON_LONGPRESS_TIME`). -/
def BUTTON_LONGPRESS_TIME : Nat := 1000

/-- One per-button record, mirroring `struct AsyncButton::State` field by
field.  `mappedState` is the `State *` back-reference, modelled as an index
into the active registry list (`none` = `nullptr`). -/
structure BState where
  pin : Nat
  state : Nat
  doublePress : Bool
  duration : Nat
  last_time : Nat
  lastReading : Nat
  lastChangeTime : Nat
  lastLongPressCallback : Nat
  mappedPin : Nat
  mappedState : Option Nat
deriving Repr, DecidableEq

/-- Pass-1 body of `update()` for one record (AsyncButton.cpp lines 84-120):
debounce, press/release classification, double-press detection, long-press
callback throttling.  Returns the new record and whether the long-press
callback fired on this poll. -/
def updateButton (hcb : Bool) (now reading : Nat) (b : BState) : BState × Bool :=
  if b.pin = 255 then (b, false) else
  let b1 := if reading ≠ b.lastReading then { b with lastChangeTime := now } else b
  let b2 :=
    if BUTTON_DEBOUNCE_TIME < wsub now b1.lastChangeTime then
      if reading ≠ b1.state then
        let bi :=
          if reading = PRESSED then
            { b1 with doublePress := decide (wsub now b1.last_time < BUTTON_DOUBLECLICK_TIME),
                      duration := 0, last_time := now }
          else if reading = RELEASED ∧ b1.state = PRESSED then
            { b1 with duration := wsub now b1.last_time }
          else b1
        { bi with state := reading }
      else b1
    else b1
  let b3 := { b2 with lastReading := reading }
  let fire : Bool :=
    decide (reading = PRESSED) && decide (b3.state = PRESSED) && hcb &&
    decide (BUTTON_LONGPRESS_TIME ≤ wsub now b3.last_time) &&
    decide (BUTTON_LONGPRESS_TIME ≤ wsub now b3.lastLongPressCallback)
  let b4 := if fire then { b3 with lastLongPressCallback := now } else b3
  let b5 := if reading = RELEASED then { b4 with lastLongPressCallback := 0 } else b4
  (b5, fire)

/-- Array indexing `buttons[i]` on the registry list. -/
def nth : List BState → Nat → Option BState
  | [], _ => none
  | b :: _, 0 => some b
  | _ :: rest, n + 1 => nth rest n

/-- Array write `buttons[i] = x` on the registry list (out of range: no-op). -/
def setAt : List BState → Nat → BState → List BState
  | [], _, _ => []
  | _ :: rest, 0, x => x :: rest
  | b :: rest, n + 1, x => b :: setAt rest n x

/-- Linear scan of `getState` (AsyncButton.cpp lines 185-188): index of the
first record whose `pin` matches. -/
def findPin (pin : Nat) : List BState → Option Nat
  | [] => none
  | b :: rest => if b.pin = pin then some 0 else (findPin pin rest).map (· + 1)

/-- `getState(pin)` (AsyncButton.cpp lines 181-189): `none` for the sentinel
pin 255 or an unknown pin, otherwise the index of the first matching record. -/
def getState (bs : List BState) (pin : Nat) : Option Nat :=
  if pin = 255 then none else findPin pin bs

/-- The record value written by `reset` (AsyncButton.cpp line 27 / 35):
`{pin, RELEASED, false, 0, 0, RELEASED, millis(), 0, mappedPin, mappedState}`. -/
def resetRecord (now : Nat) (b : BState) : BState :=
  { pin := b.pin, state := RELEASED, doublePress := false, duration := 0,
    last_time := 0, lastReading := RELEASED, lastChangeTime := now,
    lastLongPressCallback := 0, mappedPin := b.mappedPin,
    mappedState := b.mappedState }

/-- Cascade loop of `reset` (AsyncButton.cpp lines 28-37): every record whose
`mappedPin` equals the reset pin, other than the record found by `getState`
(the pointer inequality `&mappedButton != button`), is rewritten the same
way.  `k` is the index of the head of the remaining list. -/
def resetOthers (now pin idx : Nat) : Nat → List BState → List BState
  | _, [] => []
  | k, b :: rest =>
    (if b.mappedPin = pin ∧ k ≠ idx then resetRecord now b else b) ::
      resetOthers now pin idx (k + 1) rest

/-- `reset(pin)` (AsyncButton.cpp lines 20-38): look the pin up, rewrite that
record, then cascade to records whose `mappedPin` equals the pin. -/
def reset (now pin : Nat) (bs : List BState) : List BState :=
  match getState bs pin with
  | none => bs
  | some idx =>
    match nth bs idx with
    | none => bs
    | some button =>
      resetOthers now pin idx 0 (setAt bs idx (resetRecord now button))

/-- `checkPress` (AsyncButton.cpp lines 135-149).  The record argument is the
`State *` produced by a lookup (`none` = `nullptr`); on a full match with
`consume` set, the record's button is reset in the registry.  Returns the
query result and the (possibly reset) registry. -/
def checkPress (now : Nat) (bs : List BState) (bi : Option Nat)
    (minDuration maxDuration : Nat) (requireDouble consume : Bool) :
    Bool × List BState :=
  match bi with
  | none => (false, bs)
  | some i =>
    match nth bs i with
    | none => (false, bs)
    | some b =>
      let durationOk : Bool :=
        decide (minDuration < b.duration) &&
        (decide (maxDuration = 0) || decide (b.duration ≤ maxDuration))
      let doubleOk : Bool := !requireDouble || b.doublePress
      let released : Bool :=
        decide (b.state = RELEASED) && decide (0 < b.duration) &&
        decide (BUTTON_DOUBLECLICK_TIME < wsub now b.last_time)
      if released && durationOk && doubleOk then
        (true, if consume then reset now b.pin bs else bs)
      else (false, bs)

/-- Common shape of the six query predicates: `checkPress(getState(pin), ...)`. -/
def queryPin (now : Nat) (bs : List BState) (pin minDuration maxDuration : Nat)
    (requireDouble consume : Bool) : Bool × List BState :=
  checkPress now bs (getState bs pin) minDuration maxDuration requireDouble consume

/-- `isPressed` (AsyncButton.cpp lines 151-154). -/
def isPressed (now : Nat) (bs : List BState) (pin : Nat) (consume : Bool) :
    Bool × List BState :=
  queryPin now bs pin 0 0 false consume

/-- `isPressedDouble` (AsyncButton.cpp lines 156-159). -/
def isPressedDouble (now : Nat) (bs : List BState) (pin : Nat) (consume : Bool) :
    Bool × List BState :=
  queryPin now bs pin 0 0 true consume

/-- `isShortPressed` (AsyncButton.cpp lines 161-164). -/
def isShortPressed (now : Nat) (bs : List BState) (pin : Nat) (consume : Bool) :
    Bool × List BState :=
  queryPin now bs pin 0 BUTTON_LONGPRESS_TIME false consume

/-- `isShortPressedDouble` (AsyncButton.cpp lines 166-169). -/
def isShortPressedDouble (now : Nat) (bs : List BState) (pin : Nat) (consume : Bool) :
    Bool × List BState :=
  queryPin now bs pin 0 BUTTON_LONGPRESS_TIME true consume

/-- `isLongPressed` (AsyncButton.cpp lines 171-174). -/
def isLongPressed (now : Nat) (bs : List BState) (pin : Nat) (consume : Bool) :
    Bool × List BState :=
  queryPin now bs pin BUTTON_LONGPRESS_TIME 0 false consume

/-- `isLongPressedDouble` (AsyncButton.cpp lines 176-179). -/
def isLongPressedDouble (now : Nat) (bs : List BState) (pin : Nat) (consume : Bool) :
    Bool × List BState :=
  queryPin now bs pin BUTTON_LONGPRESS_TIME 0 true consume

/-- Field copy of alias propagation (AsyncButton.cpp lines 127-130): the
source's `state`, `duration`, `doublePress`, `last_time` overwrite the
target's. -/
def copyOnto (src tgt : BState) : BState :=
  { tgt with state := src.state, duration := src.duration,
             doublePress := src.doublePress, last_time := src.last_time }

/-- One iteration of the second pass of `update()` (AsyncButton.cpp lines
122-132), for the record at index `i` of the evolving registry: if its
`mappedState` is non-null and its `state` is `PRESSED`, copy onto the target.
Note the iteration has no `pin == 255` test. -/
def pass2Do (bs : List BState) (i : Nat) : List BState :=
  match nth bs i with
  | none => bs
  | some b =>
    match b.mappedState with
    | none => bs
    | some j =>
      if b.state = PRESSED then
        match nth bs j with
        | none => bs
        | some t => setAt bs j (copyOnto b t)
      else bs

/-- The second pass of `update()`: iterate `pass2Do` over all indices in
order, each iteration reading the registry as left by the previous one. -/
def pass2Loop : List BState → Nat → Nat → List BState
  | bs, _, 0 => bs
  | bs, i, fuel + 1 => pass2Loop (pass2Do bs i) (i + 1) fuel

/-- Alias-propagation pass over the whole registry. -/
def pass2 (bs : List BState) : List BState := pass2Loop bs 0 bs.length

/-- `update()` (AsyncButton.cpp lines 78-133): pass 1 advances every record
from its pin's raw reading (sentinel records skipped inside `updateButton`),
pass 2 propagates aliases.  The second component counts long-press callback
invocations during this poll. -/
def update (hcb : Bool) (now : Nat) (input : Nat → Nat) (bs : List BState) :
    List BState × Nat :=
  let stepped := bs.map (fun b => updateButton hcb now (input b.pin) b)
  (pass2 (stepped.map Prod.fst), (stepped.filter Prod.snd).length)

/-- Run a sequence of `(time, reading)` polls through one record's pass-1
step. -/
def runTrace (hcb : Bool) (steps : List (Nat × Nat)) (b : BState) : BState :=
  steps.foldl (fun s p => (updateButton hcb p.1 p.2 s).1) b

/-- Times at which the long-press callback fires along a poll trace of one
record. -/
def fireTimes (hcb : Bool) (steps : List (Nat × Nat)) (b : BState) : List Nat :=
  match steps with
  | [] => []
  | (t, r) :: rest =>
    let s := updateButton hcb t r b
    if s.2 then t :: fireTimes hcb rest s.1 else fireTimes hcb rest s.1

/-- A fresh record as statically initialised in `Buttons[]`
(AsyncButton.cpp lines 10-14): `{pin, RELEASED, false, 0, 0, RELEASED, 0, 0,
255, nullptr}`, here with no mirror link. -/
def freshButton (pin : Nat) : BState :=
  { pin := pin, state := RELEASED, doublePress := false, duration := 0,
    last_time := 0, lastReading := RELEASED, lastChangeTime := 0,
    lastLongPressCallback := 0, mappedPin := 255, mappedState := none }

/-- A poll every millisecond for `len` polls starting at clock `t0`, raw
input held at `PRESSED` throughout: `(t0, PRESSED), ..., (t0+len-1, PRESSED)`. -/
def holdSeg : Nat → Nat → List (Nat × Nat)
  | _, 0 => []
  | t0, len + 1 => (t0, PRESSED) :: holdSeg (t0 + 1) len

/-- Boolean rendition of "the raw input toggles faster than the debounce
window": along the poll trace, whenever a poll repeats the previous reading,
the time since the current debounce anchor (the last raw change) is still
inside the window.  A trace whose raw toggles are spaced less than the window
apart, polled at least once per toggle interval, satisfies this. -/
def fastToggle : Nat → Nat → List (Nat × Nat) → Bool
  | _, _, [] => true
  | lastR, anchor, (t, r) :: rest =>
    (r != lastR || decide (wsub t anchor < BUTTON_DEBOUNCE_TIME)) &&
    fastToggle r (if r = lastR then anchor else t) rest

/-- The record with the claim-violating boundary timing for `checkPress`:
a completed 100 ms press registered at clock 0, queried at clock 400, so
exactly `BUTTON_DOUBLECLICK_TIME` ms have elapsed since `last_time`. -/
def cexBtn : BState :=
  { pin := 3, state := RELEASED, doublePress := false, duration := 100,
    last_time := 0, lastReading := RELEASED, lastChangeTime := 0,
    lastLongPressCallback := 0, mappedPin := 255, mappedState := none }

/-- Modelled from the claim's wording of the `checkPress` gates: resolved
state Released with positive duration and AT LEAST `DOUBLECLICK_WINDOW` ms
elapsed since `lastPressTime`; the duration gate; and requireDouble implies
doublePress. -/
@[reducible] def claimGates (b : BState) (now minDuration maxDuration : Nat)
    (requireDouble : Bool) : Prop :=
  (b.state = RELEASED ∧ 0 < b.duration ∧
    BUTTON_DOUBLECLICK_TIME ≤ wsub now b.last_time) ∧
  (minDuration < b.duration ∧ (maxDuration = 0 ∨ b.duration ≤ maxDuration)) ∧
  (requireDouble = true → b.doublePress = true)

/-- A registry record with the sentinel pin 255 but a live mirror link and a
Pressed state: pass 2 of `update()` does not test the pin, so this record
still propagates onto its target. -/
def sentinelSrc : BState :=
  { pin := 255, state := PRESSED, doublePress := true, duration := 7,
    last_time := 9, lastReading := RELEASED, lastChangeTime := 0,
    lastLongPressCallback := 0, mappedPin := 4, mappedState := some 1 }

/-- The mirror target of `sentinelSrc`. -/
def mirrorTgt : BState := freshButton 4

/-- A record pressed 100 ms before the clock wraps, whose raw level went back
up 60 ms before the wrap; queried at clock 50 after the wrap the release is
debounced and the latched duration must be the real 150 ms. -/
def wrapRelease : BState :=
  { pin := 4, state := PRESSED, doublePress := false, duration := 0,
    last_time := UMOD - 100, lastReading := RELEASED,
    lastChangeTime := UMOD - 60, lastLongPressCallback := 0,
    mappedPin := 255, mappedState := none }

/-- A record still held at clock 50 after the wrap, pressed 100 ms before the
wrap, with a long-press fire 50 ms before the wrap: only 150 ms of real hold,
so no long-press callback may fire. -/
def wrapHold : BState :=
  { pin := 4, state := PRESSED, doublePress := false, duration := 0,
    last_time := UMOD - 100, lastReading := PRESSED,
    lastChangeTime := UMOD - 100, lastLongPressCallback := UMOD - 50,
    mappedPin := 255, mappedState := none }

/-- A fresh record whose raw input has been Low since clock 0, as seen at the
poll that registers the press. -/
def earlyPressBtn : BState :=
  { pin := 4, state := RELEASED, doublePress := false, duration := 0,
    last_time := 0, lastReading := PRESSED, lastChangeTime := 0,
    lastLongPressCallback := 0, mappedPin := 255, mappedState := none }

/-- A record holding one completed press: 500 ms, registered at clock 0,
double-flagged. -/
def pressedBtn : BState :=
  { pin := 7, state := RELEASED, doublePress := true, duration := 500,
    last_time := 0, lastReading := RELEASED, lastChangeTime := 0,
    lastLongPressCallback := 0, mappedPin := 255, mappedState := none }

/-- Reset-cascade demo, record 0: the pin that gets reset, with a stale
press. -/
def mirrorA : BState :=
  { pin := 2, state := RELEASED, doublePress := true, duration := 300,
    last_time := 10, lastReading := PRESSED, lastChangeTime := 20,
    lastLongPressCallback := 30, mappedPin := 255, mappedState := none }

/-- Reset-cascade demo, record 1: mirrors pin 2, so `reset 2` clears it
too. -/
def mirrorB : BState :=
  { pin := 5, state := PRESSED, doublePress := true, duration := 7,
    last_time := 11, lastReading := PRESSED, lastChangeTime := 21,
    lastLongPressCallback := 31, mappedPin := 2, mappedState := some 0 }

/-- Reset-cascade demo, record 2: mirrors pin 5 (the dependent), NOT pin 2,
so `reset 2` must leave it alone — no second-hop cascade. -/
def mirrorC : BState :=
  { pin := 6, state := PRESSED, doublePress := true, duration := 9,
    last_time := 12, lastReading := PRESSED, lastChangeTime := 22,
    lastLongPressCallback := 32, mappedPin := 5, mappedState := some 1 }

/-- Registry for the reset-cascade demonstration. -/
def regMirror : List BState := [mirrorA, mirrorB, mirrorC]

/-- Pin skeleton of a registry: the list of pins in order. -/
def pins (bs : List BState) : List Nat := bs.map (fun b => b.pin)

theorem wsub_self (a : Nat) : wsub a a = 0 := by
  simp only [wsub, UMOD]
  omega

theorem wsub_zero (a : Nat) (h : a < UMOD) : wsub a 0 = a := by
  simp only [wsub, UMOD] at *
  omega

/-- Unsigned subtraction recovers the true elapsed time across at most one
wraparound of the 32-bit millisecond clock. -/
theorem wsub_wrap (start elapsed : Nat) (h1 : start < UMOD) (h2 : elapsed < UMOD) :
    wsub ((start + elapsed) % UMOD) start = elapsed := by
  simp only [wsub, UMOD] at *
  omega

/-- A pass-1 step that sees either a raw toggle or a reading that has been
stable for no longer than the debounce window leaves the resolved state
unchanged and maintains the raw-edge bookkeeping. -/
theorem updateButton_stable (hcb : Bool) (now r : Nat) (b : BState)
    (hpin : b.pin ≠ 255)
    (h : r = b.lastReading → wsub now b.lastChangeTime < BUTTON_DEBOUNCE_TIME) :
    ((updateButton hcb now r b).1.state = b.state) ∧
    ((updateButton hcb now r b).1.lastReading = r) ∧
    ((updateButton hcb now r b).1.lastChangeTime =
      if r = b.lastReading then b.lastChangeTime else now) ∧
    ((updateButton hcb now r b).1.pin = b.pin) := by
  by_cases hr : r = b.lastReading
  · have hd : ¬ (BUTTON_DEBOUNCE_TIME < wsub now b.lastChangeTime) := by
      have := h hr
      omega
    simp only [updateButton, if_neg hpin, hr]
    simp only [ne_eq, not_true_eq_false, if_false, if_neg hd, if_pos rfl]
    split <;> split <;> simp
  · have hz : wsub now now = 0 := wsub_self now
    simp only [updateButton, if_neg hpin]
    simp only [ne_eq, hr, not_false_eq_true, if_true, if_neg hr]
    have hd : ¬ (BUTTON_DEBOUNCE_TIME < wsub now now) := by
      rw [hz]; simp [BUTTON_DEBOUNCE_TIME]
    simp only [if_neg hd]
    split <;> split <;> simp

/-- Claim C2: for every sequence of poll steps in which a button's raw
reading toggles with inter-toggle spacing strictly less than the debounce
window (formalised by `fastToggle`: every poll that repeats the previous
reading is still within the debounce window of the current raw-change
anchor), the button's resolved state never changes. -/
theorem debounce_stability (hcb : Bool) (steps : List (Nat × Nat)) (b : BState)
    (hpin : b.pin ≠ 255)
    (h : fastToggle b.lastReading b.lastChangeTime steps = true) :
    (runTrace hcb steps b).state = b.state := by
  induction steps generalizing b with
  | nil => simp [runTrace]
  | cons p rest ih =>
    obtain ⟨t, r⟩ := p
    simp only [fastToggle, Bool.and_eq_true, Bool.or_eq_true, bne_iff_ne, ne_eq,
      decide_eq_true_eq] at h
    obtain ⟨h1, h2⟩ := h
    have hcond : r = b.lastReading → wsub t b.lastChangeTime < BUTTON_DEBOUNCE_TIME := by
      intro hr
      rcases h1 with h1 | h1
      · exact absurd hr h1
      · exact h1
    obtain ⟨hs, hlr, hct, hp⟩ := updateButton_stable hcb t r b hpin hcond
    have hrun : runTrace hcb ((t, r) :: rest) b
        = runTrace hcb rest (updateButton hcb t r b).1 := by
      simp [runTrace]
    have hpin2 : (updateButton hcb t r b).1.pin ≠ 255 := by
      rw [hp]; exact hpin
    have hft : fastToggle (updateButton hcb t r b).1.lastReading
        (updateButton hcb t r b).1.lastChangeTime rest = true := by
      rw [hlr, hct]; exact h2
    rw [hrun, ih (updateButton hcb t r b).1 hpin2 hft, hs]

/-- Witness for C2 on a concrete flickering trace: reading goes Low at t=10,
repeats at t=20 (10 ms after the anchor), back High at t=30, Low at t=40;
the resolved state stays Released throughout. -/
theorem debounce_stability_witness :
    ((freshButton 4).pin ≠ 255 ∧
      fastToggle (freshButton 4).lastReading (freshButton 4).lastChangeTime
        [(10, 0), (20, 0), (30, 1), (40, 0)] = true) ∧
    (runTrace true [(10, 0), (20, 0), (30, 1), (40, 0)] (freshButton 4)).state
      = (freshButton 4).state :=
  ⟨⟨by decide, by decide⟩,
    debounce_stability true [(10, 0), (20, 0), (30, 1), (40, 0)] (freshButton 4)
      (by decide) (by decide)⟩

theorem nth_setAt_eq (bs : List BState) (i : Nat) (x b : BState)
    (h : nth bs i = some b) : nth (setAt bs i x) i = some x := by
  induction bs generalizing i with
  | nil => simp [nth] at h
  | cons hd tl ih =>
    cases i with
    | zero => simp [nth, setAt]
    | succ n =>
      simp only [nth, setAt] at *
      exact ih n h

theorem nth_setAt_ne (bs : List BState) (i j : Nat) (x : BState)
    (h : j ≠ i) : nth (setAt bs i x) j = nth bs j := by
  induction bs generalizing i j with
  | nil => simp [setAt]
  | cons hd tl ih =>
    cases i with
    | zero =>
      cases j with
      | zero => exact absurd rfl h
      | succ m => simp [nth, setAt]
    | succ n =>
      cases j with
      | zero => simp [nth, setAt]
      | succ m =>
        simp only [nth, setAt]
        exact ih n m (fun e => h (by rw [e]))

theorem nth_resetOthers (now pin idx : Nat) (bs : List BState) (k i : Nat) :
    nth (resetOthers now pin idx k bs) i =
      (nth bs i).map
        (fun b => if b.mappedPin = pin ∧ k + i ≠ idx then resetRecord now b else b) := by
  induction bs generalizing k i with
  | nil => simp [nth, resetOthers]
  | cons hd tl ih =>
    cases i with
    | zero => simp [nth, resetOthers]
    | succ m =>
      simp only [nth, resetOthers]
      rw [ih (k + 1) m]
      have : k + 1 + m = k + (m + 1) := by omega
      rw [this]

theorem findPin_some_pin (pin : Nat) (bs : List BState) (i : Nat)
    (h : findPin pin bs = some i) : ∃ b, nth bs i = some b ∧ b.pin = pin := by
  induction bs generalizing i with
  | nil => simp [findPin] at h
  | cons hd tl ih =>
    simp only [findPin] at h
    by_cases hp : hd.pin = pin
    · rw [if_pos hp] at h
      injection h with h
      exact ⟨hd, by rw [← h]; simp [nth], hp⟩
    · rw [if_neg hp] at h
      cases hf : findPin pin tl with
      | none => rw [hf] at h; exact Option.noConfusion h
      | some j =>
        rw [hf] at h
        simp only [Option.map_some'] at h
        injection h with h
        obtain ⟨b, hb, hbp⟩ := ih j hf
        exact ⟨b, by rw [← h]; simpa [nth] using hb, hbp⟩

theorem findPin_pins (p : Nat) (bs cs : List BState) (h : pins bs = pins cs) :
    findPin p bs = findPin p cs := by
  induction bs generalizing cs with
  | nil =>
    cases cs with
    | nil => rfl
    | cons c ct => simp [pins] at h
  | cons hd tl ih =>
    cases cs with
    | nil => simp [pins] at h
    | cons c ct =>
      simp only [pins, List.map_cons, List.cons.injEq] at h
      obtain ⟨h1, h2⟩ := h
      simp only [findPin, h1, ih ct h2]

theorem pins_setAt (bs : List BState) (i : Nat) (x b : BState)
    (h : nth bs i = some b) (hx : x.pin = b.pin) :
    pins (setAt bs i x) = pins bs := by
  induction bs generalizing i with
  | nil => simp [setAt]
  | cons hd tl ih =>
    cases i with
    | zero =>
      simp only [nth] at h
      injection h with h
      simp [setAt, pins, hx, h]
    | succ n =>
      simp only [nth] at h
      simp only [setAt, pins, List.map_cons, List.cons.injEq]
      exact ⟨trivial, ih n h⟩

theorem pins_resetOthers (now pin idx k : Nat) (bs : List BState) :
    pins (resetOthers now pin idx k bs) = pins bs := by
  induction bs generalizing k with
  | nil => simp [resetOthers]
  | cons hd tl ih =>
    simp only [resetOthers, pins, List.map_cons, List.cons.injEq]
    constructor
    · split <;> simp [resetRecord]
    · exact ih (k + 1)

theorem reset_none (now pin : Nat) (bs : List BState) (h : getState bs pin = none) :
    reset now pin bs = bs := by
  unfold reset
  rw [h]

theorem reset_some (now pin idx : Nat) (bs : List BState) (button : BState)
    (h : getState bs pin = some idx) (hn : nth bs idx = some button) :
    reset now pin bs =
      resetOthers now pin idx 0 (setAt bs idx (resetRecord now button)) := by
  unfold reset
  split
  · rename_i heq
    rw [h] at heq
    cases heq
  · rename_i idx2 heq
    rw [h] at heq
    injection heq with heq
    subst heq
    split
    · rename_i hn2
      rw [hn] at hn2
      cases hn2
    · rename_i button2 hn2
      rw [hn] at hn2
      injection hn2 with hn2
      subst hn2
      rfl

/-- `nth bs idx` is defined when `getState` found the pin at `idx`. -/
theorem getState_nth (pin : Nat) (bs : List BState) (idx : Nat)
    (h : getState bs pin = some idx) :
    ∃ b, nth bs idx = some b ∧ b.pin = pin := by
  unfold getState at h
  by_cases hp : pin = 255
  · rw [if_pos hp] at h; cases h
  · rw [if_neg hp] at h
    exact findPin_some_pin pin bs idx h

theorem getState_reset (now pin q : Nat) (bs : List BState) :
    getState (reset now pin bs) q = getState bs q := by
  cases hg : getState bs pin with
  | none => rw [reset_none now pin bs hg]
  | some idx =>
    obtain ⟨button, hn, hbp⟩ := getState_nth pin bs idx hg
    rw [reset_some now pin idx bs button hg hn]
    unfold getState
    by_cases hq : q = 255
    · simp [hq]
    · rw [if_neg hq, if_neg hq]
      apply findPin_pins
      rw [pins_resetOthers]
      exact pins_setAt bs idx (resetRecord now button) button hn (by simp [resetRecord])

/-- Full characterisation of `reset(pin)` on a registry containing the pin:
the named record and every other record whose `mappedPin` equals the pin are
rewritten to `resetRecord`, all remaining records are untouched. -/
theorem reset_nth (now pin : Nat) (bs : List BState) (idx : Nat)
    (hidx : getState bs pin = some idx) (i : Nat) (b : BState)
    (hb : nth bs i = some b) :
    nth (reset now pin bs) i =
      some (if i = idx ∨ b.mappedPin = pin then resetRecord now b else b) := by
  obtain ⟨bidx, hbidx, hbpin⟩ := getState_nth pin bs idx hidx
  rw [reset_some now pin idx bs bidx hidx hbidx]
  rw [nth_resetOthers]
  by_cases hi : i = idx
  · subst hi
    have hbb : b = bidx := Option.some.inj (hb.symm.trans hbidx)
    rw [nth_setAt_eq bs i (resetRecord now bidx) bidx hbidx]
    simp only [Option.map_some']
    have hcond : ¬ ((resetRecord now bidx).mappedPin = pin ∧ 0 + i ≠ i) := by
      intro hc
      have hz : (0 : Nat) + i = i := by omega
      exact hc.2 hz
    rw [if_neg hcond]
    simp [hbb]
  · rw [nth_setAt_ne bs idx i (resetRecord now bidx) hi, hb]
    simp only [Option.map_some']
    by_cases hmp : b.mappedPin = pin
    · have hc1 : b.mappedPin = pin ∧ 0 + i ≠ idx := ⟨hmp, by omega⟩
      rw [if_pos hc1, if_pos (Or.inr hmp)]
    · have hc1 : ¬ (b.mappedPin = pin ∧ 0 + i ≠ idx) := fun hc => hmp hc.1
      have hc2 : ¬ (i = idx ∨ b.mappedPin = pin) := by
        intro hc
        rcases hc with hc | hc
        · exact hi hc
        · exact hmp hc
      rw [if_neg hc1, if_neg hc2]

theorem checkPress_nullptr (now : Nat) (bs : List BState)
    (minD maxD : Nat) (rd c : Bool) :
    checkPress now bs none minD maxD rd c = (false, bs) := rfl

theorem checkPress_no_record (now : Nat) (bs : List BState) (i : Nat)
    (minD maxD : Nat) (rd c : Bool) (h : nth bs i = none) :
    checkPress now bs (some i) minD maxD rd c = (false, bs) := by
  unfold checkPress
  split
  · rename_i heq
    cases heq
  · rename_i i2 heq
    injection heq with heq
    subst heq
    split
    · rfl
    · rename_i b2 hn2
      rw [h] at hn2
      cases hn2

theorem checkPress_record (now : Nat) (bs : List BState) (i : Nat) (b : BState)
    (minD maxD : Nat) (rd c : Bool) (h : nth bs i = some b) :
    checkPress now bs (some i) minD maxD rd c =
      (if (decide (b.state = RELEASED) && decide (0 < b.duration) &&
           decide (BUTTON_DOUBLECLICK_TIME < wsub now b.last_time) &&
           (decide (minD < b.duration) &&
             (decide (maxD = 0) || decide (b.duration ≤ maxD))) &&
           (!rd || b.doublePress)) = true then
        (true, if c then reset now b.pin bs else bs)
      else (false, bs)) := by
  unfold checkPress
  split
  · rename_i heq
    cases heq
  · rename_i i2 heq
    injection heq with heq
    subst heq
    split
    · rename_i hn2
      rw [h] at hn2
      cases hn2
    · rename_i b2 hn2
      rw [h] at hn2
      injection hn2 with hn2
      subst hn2
      rfl

theorem findPin_none (pin : Nat) (bs : List BState)
    (h : ∀ b ∈ bs, b.pin ≠ pin) : findPin pin bs = none := by
  induction bs with
  | nil => rfl
  | cons hd tl ih =>
    unfold findPin
    rw [if_neg (h hd (by simp))]
    rw [ih (fun b hb => h b (by simp [hb]))]
    rfl

/-- Claim C1, amended: for every record present in the registry,
`checkPress` returns true iff the three gates hold, where the settle gate is
STRICTLY more than `BUTTON_DOUBLECLICK_TIME` ms since `last_time` (the claim
said "at least"). -/
theorem checkPress_gates (now : Nat) (bs : List BState) (i : Nat) (b : BState)
    (minDuration maxDuration : Nat) (requireDouble consume : Bool)
    (hb : nth bs i = some b) :
    (checkPress now bs (some i) minDuration maxDuration requireDouble consume).1 = true ↔
      ((b.state = RELEASED ∧ 0 < b.duration ∧
          BUTTON_DOUBLECLICK_TIME < wsub now b.last_time) ∧
       (minDuration < b.duration ∧
          (maxDuration = 0 ∨ b.duration ≤ maxDuration)) ∧
       (requireDouble = true → b.doublePress = true)) := by
  rw [checkPress_record now bs i b minDuration maxDuration requireDouble consume hb]
  split
  · rename_i hC
    simp only [Bool.and_eq_true, Bool.or_eq_true, Bool.not_eq_true',
      decide_eq_true_eq] at hC
    constructor
    · intro _
      obtain ⟨⟨⟨⟨g1, g2⟩, g3⟩, g4⟩, g5⟩ := hC
      refine ⟨⟨g1, g2, g3⟩, g4, ?_⟩
      intro hrd
      rcases g5 with g5 | g5
      · rw [hrd] at g5; cases g5
      · exact g5
    · intro _
      rfl
  · rename_i hC
    constructor
    · intro hfalse
      exact Bool.noConfusion hfalse
    · intro hg
      exfalso
      apply hC
      simp only [Bool.and_eq_true, Bool.or_eq_true, Bool.not_eq_true',
        decide_eq_true_eq]
      obtain ⟨⟨g1, g2, g3⟩, g4, g5⟩ := hg
      refine ⟨⟨⟨⟨g1, g2⟩, g3⟩, g4⟩, ?_⟩
      cases requireDouble with
      | false => exact Or.inl rfl
      | true => exact Or.inr (g5 rfl)

/-- Witness for the amended C1 at clock 500 on a registry holding one
completed 100 ms press registered at clock 0. -/
theorem checkPress_gates_witness :
    (checkPress 500 [cexBtn] (some 0) 0 0 false false).1 = true ↔
      ((cexBtn.state = RELEASED ∧ 0 < cexBtn.duration ∧
          BUTTON_DOUBLECLICK_TIME < wsub 500 cexBtn.last_time) ∧
       ((0:Nat) < cexBtn.duration ∧ ((0:Nat) = 0 ∨ cexBtn.duration ≤ 0)) ∧
       (false = true → cexBtn.doublePress = true)) :=
  checkPress_gates 500 [cexBtn] 0 cexBtn 0 0 false false rfl

/-- Counterexample to C1 as stated: at clock 400 exactly
`BUTTON_DOUBLECLICK_TIME` ms have elapsed since `last_time = 0`, so the
claim's "at least DOUBLECLICK_WINDOW ms have elapsed" gate passes (see
`claimGates`) and the other gates pass, yet the code's strict
`millis() - last_time > BUTTON_DOUBLECLICK_TIME` makes `checkPress` return
false: the claimed equivalence fails on this record. -/
theorem checkPress_gates_cex :
    ¬ (((checkPress 400 [cexBtn] (getState [cexBtn] 3) 0 0 false false).1 = true) ↔
        claimGates cexBtn 400 0 0 false) := by decide

/-- Claim C6: a consume=false query leaves the registry unchanged, so an
immediately repeated query (any of the six predicates is `queryPin` at fixed
thresholds) gives the same answer as the first. -/
theorem nonconsume_stable (now now2 : Nat) (bs : List BState)
    (pin minDuration maxDuration : Nat) (requireDouble : Bool) :
    (queryPin now bs pin minDuration maxDuration requireDouble false).2 = bs ∧
    (queryPin now2 (queryPin now bs pin minDuration maxDuration requireDouble false).2
        pin minDuration maxDuration requireDouble false).1 =
      (queryPin now2 bs pin minDuration maxDuration requireDouble false).1 := by
  have hsnd : (queryPin now bs pin minDuration maxDuration requireDouble false).2 = bs := by
    unfold queryPin
    cases hg : getState bs pin with
    | none => rw [checkPress_nullptr]
    | some i =>
      cases hn : nth bs i with
      | none => rw [checkPress_no_record now bs i minDuration maxDuration requireDouble false hn]
      | some b =>
        rw [checkPress_record now bs i b minDuration maxDuration requireDouble false hn]
        split <;> rfl
  exact ⟨hsnd, by rw [hsnd]⟩

/-- Claim C5: after a consuming query matched (returned true), the matched
press has been consumed by `reset`, so the same consuming query called again
immediately (same thresholds, any clock) returns false. -/
theorem consume_idempotent (now now2 : Nat) (bs : List BState)
    (pin minDuration maxDuration : Nat) (requireDouble : Bool)
    (h : (queryPin now bs pin minDuration maxDuration requireDouble true).1 = true) :
    (queryPin now2 (queryPin now bs pin minDuration maxDuration requireDouble true).2
        pin minDuration maxDuration requireDouble true).1 = false := by
  unfold queryPin at h
  cases hg : getState bs pin with
  | none =>
    rw [hg, checkPress_nullptr] at h
    exact Bool.noConfusion h
  | some i =>
    rw [hg] at h
    cases hn : nth bs i with
    | none =>
      rw [checkPress_no_record now bs i minDuration maxDuration requireDouble true hn] at h
      exact Bool.noConfusion h
    | some b =>
      rw [checkPress_record now bs i b minDuration maxDuration requireDouble true hn] at h
      split at h
      · rename_i hC
        obtain ⟨b2, hn2, hbp⟩ := getState_nth pin bs i hg
        have hb2 : b = b2 := Option.some.inj (hn.symm.trans hn2)
        subst hb2
        have hsnd : (queryPin now bs pin minDuration maxDuration requireDouble true).2
            = reset now pin bs := by
          unfold queryPin
          rw [hg, checkPress_record now bs i b minDuration maxDuration requireDouble true hn,
            if_pos hC, hbp]
          simp
        rw [hsnd]
        have hg2 : getState (reset now pin bs) pin = some i := by
          rw [getState_reset]
          exact hg
        have hni : nth (reset now pin bs) i = some (resetRecord now b) := by
          rw [reset_nth now pin bs i hg i b hn, if_pos (Or.inl rfl)]
        unfold queryPin
        rw [hg2, checkPress_record now2 (reset now pin bs) i (resetRecord now b)
          minDuration maxDuration requireDouble true hni]
        have hz : decide (0 < (resetRecord now b).duration) = false := by
          simp [resetRecord]
        simp [hz]
      · exact Bool.noConfusion h

/-- Witness for C5: one completed 500 ms press on pin 7, queried twice with
consume at clock 401. -/
theorem consume_idempotent_witness :
    (queryPin 401 [pressedBtn] 7 0 0 false true).1 = true ∧
    (queryPin 401 (queryPin 401 [pressedBtn] 7 0 0 false true).2
        7 0 0 false true).1 = false :=
  ⟨by decide, consume_idempotent 401 401 [pressedBtn] 7 0 0 false (by decide)⟩

/-- Claim C7: `reset(pin)` rewrites the named record and every other record
whose `mappedPin` equals the pin to the cleared record (resolved state
Released, doublePress false, duration 0, lastPressTime 0, lastRawReading
Released, lastRawChangeTime now, lastLongPressFireTime 0), preserving `pin`,
`mappedPin`, `mappedState`; every remaining record — including a second-hop
dependent — is unchanged. -/
theorem reset_fields (now pin : Nat) (bs : List BState) (idx : Nat)
    (hidx : getState bs pin = some idx) (i : Nat) (b : BState)
    (hb : nth bs i = some b) :
    nth (reset now pin bs) i =
      some (if i = idx ∨ b.mappedPin = pin then
        { pin := b.pin, state := RELEASED, doublePress := false, duration := 0,
          last_time := 0, lastReading := RELEASED, lastChangeTime := now,
          lastLongPressCallback := 0, mappedPin := b.mappedPin,
          mappedState := b.mappedState } else b) :=
  reset_nth now pin bs idx hidx i b hb

/-- Witness for C7: resetting pin 2 in `regMirror` clears the dependent
record (index 1, mirrors pin 2). -/
theorem reset_fields_witness :
    (getState regMirror 2 = some 0 ∧ nth regMirror 1 = some mirrorB) ∧
    nth (reset 100 2 regMirror) 1 =
      some (if (1:Nat) = 0 ∨ mirrorB.mappedPin = 2 then
        { pin := mirrorB.pin, state := RELEASED, doublePress := false,
          duration := 0, last_time := 0, lastReading := RELEASED,
          lastChangeTime := 100, lastLongPressCallback := 0,
          mappedPin := mirrorB.mappedPin, mappedState := mirrorB.mappedState }
        else mirrorB) :=
  ⟨⟨by decide, by decide⟩, reset_fields 100 2 regMirror 0 (by decide) 1 mirrorB (by decide)⟩

/-- Claim C8: a sentinel (255) or unregistered pin makes all six query
predicates return false without touching the registry, and makes `reset` a
silent no-op. -/
theorem unknown_pin_safe (now : Nat) (bs : List BState) (pin : Nat) (c : Bool)
    (h : pin = 255 ∨ ∀ b ∈ bs, b.pin ≠ pin) :
    isPressed now bs pin c = (false, bs) ∧
    isPressedDouble now bs pin c = (false, bs) ∧
    isShortPressed now bs pin c = (false, bs) ∧
    isShortPressedDouble now bs pin c = (false, bs) ∧
    isLongPressed now bs pin c = (false, bs) ∧
    isLongPressedDouble now bs pin c = (false, bs) ∧
    reset now pin bs = bs := by
  have hg : getState bs pin = none := by
    unfold getState
    rcases h with h | h
    · rw [if_pos h]
    · by_cases hp : pin = 255
      · rw [if_pos hp]
      · rw [if_neg hp, findPin_none pin bs h]
  have hq : ∀ minD maxD rd, queryPin now bs pin minD maxD rd c = (false, bs) := by
    intro minD maxD rd
    unfold queryPin
    rw [hg, checkPress_nullptr]
  exact ⟨hq 0 0 false, hq 0 0 true, hq 0 BUTTON_LONGPRESS_TIME false,
    hq 0 BUTTON_LONGPRESS_TIME true, hq BUTTON_LONGPRESS_TIME 0 false,
    hq BUTTON_LONGPRESS_TIME 0 true, reset_none now pin bs hg⟩

/-- Witness for C8 at the sentinel pin 255 on a one-button registry. -/
theorem unknown_pin_safe_witness :
    ((255:Nat) = 255 ∨ ∀ b ∈ [freshButton 4], b.pin ≠ 255) ∧
    isPressed 0 [freshButton 4] 255 true = (false, [freshButton 4]) :=
  ⟨Or.inl rfl, (unknown_pin_safe 0 [freshButton 4] 255 true (Or.inl rfl)).1⟩

/-- Claim C4, amended: one iteration of pass 2 of `update()`, processing a
record whose mirror reference is resolved and whose resolved state is
Pressed, copies `state`, `duration`, `doublePress`, `last_time` onto the
target record — with no test of the sentinel pin (no `pin ≠ 255` hypothesis
is needed; pass 2, unlike pass 1, does not skip sentinel slots). -/
theorem pass2_copies (bs : List BState) (i j : Nat) (b t : BState)
    (hb : nth bs i = some b) (hs : b.state = PRESSED)
    (hm : b.mappedState = some j) (ht : nth bs j = some t) :
    pass2Do bs i = setAt bs j (copyOnto b t) := by
  unfold pass2Do
  split
  · rename_i heq
    rw [hb] at heq
    cases heq
  · rename_i b2 heq
    rw [hb] at heq
    injection heq with heq
    subst heq
    split
    · rename_i hm2
      rw [hm] at hm2
      cases hm2
    · rename_i j2 hm2
      rw [hm] at hm2
      injection hm2 with hm2
      subst hm2
      rw [if_pos hs]
      split
      · rename_i ht2
        rw [ht] at ht2
        cases ht2
      · rename_i t2 ht2
        rw [ht] at ht2
        injection ht2 with ht2
        subst ht2
        rfl

/-- Witness for amended C4: the sentinel-pinned source still propagates. -/
theorem pass2_copies_witness :
    (nth [sentinelSrc, mirrorTgt] 0 = some sentinelSrc ∧
      sentinelSrc.state = PRESSED ∧ sentinelSrc.mappedState = some 1 ∧
      nth [sentinelSrc, mirrorTgt] 1 = some mirrorTgt) ∧
    pass2Do [sentinelSrc, mirrorTgt] 0 =
      setAt [sentinelSrc, mirrorTgt] 1 (copyOnto sentinelSrc mirrorTgt) :=
  ⟨⟨rfl, rfl, rfl, rfl⟩,
    pass2_copies [sentinelSrc, mirrorTgt] 0 1 sentinelSrc mirrorTgt rfl rfl rfl rfl⟩

/-- Counterexample to C4 as stated: pass 2 does NOT skip records whose pin is
the sentinel 255.  `sentinelSrc` has pin 255, a resolved mirror reference and
a Pressed state; if pass 2 skipped it like every other operation does, the
whole pass would leave this registry unchanged (the only other record has no
mirror link), but the target record is in fact overwritten. -/
theorem pass2_sentinel_cex :
    nth (pass2 [sentinelSrc, mirrorTgt]) 1 ≠ some mirrorTgt := by decide

/-- Claim C9: time comparisons are unsigned subtractions mod 2^32: across a
single wraparound `wsub` recovers the true elapsed time, so a press 100 ms
before the clock wraps, released/checked at clock 50 after the wrap, latches
the true 150 ms duration (not a huge spurious one), and a button held across
the wrap for 150 real ms does not fire the long-press callback. -/
theorem wraparound_safe (start elapsed : Nat) (h1 : start < UMOD)
    (h2 : elapsed < UMOD) :
    wsub ((start + elapsed) % UMOD) start = elapsed ∧
    (updateButton true 50 RELEASED wrapRelease).1.duration = 150 ∧
    (updateButton true 50 PRESSED wrapHold).2 = false :=
  ⟨wsub_wrap start elapsed h1 h2, by decide, by decide⟩

/-- Witness for C9 at a start 100 ms before the wrap and 150 ms of elapsed
time. -/
theorem wraparound_safe_witness :
    wsub ((UMOD - 100 + 150) % UMOD) (UMOD - 100) = 150 ∧
    (updateButton true 50 RELEASED wrapRelease).1.duration = 150 ∧
    (updateButton true 50 PRESSED wrapHold).2 = false :=
  wraparound_safe (UMOD - 100) 150 (by decide) (by decide)

/-- Claim C10: a never-pressed (or freshly reset) record has `last_time = 0`,
so a first press whose transition to Pressed is registered at a clock value
strictly below `BUTTON_DOUBLECLICK_TIME` sets `doublePress = true` although
no prior press occurred. -/
theorem first_press_double (hcb : Bool) (now : Nat) (b : BState)
    (hpin : b.pin ≠ 255) (hlt : b.last_time = 0) (hstate : b.state = RELEASED)
    (hlr : b.lastReading = PRESSED)
    (hdeb : BUTTON_DEBOUNCE_TIME < wsub now b.lastChangeTime)
    (hnow : now < BUTTON_DOUBLECLICK_TIME) :
    (updateButton hcb now PRESSED b).1.doublePress = true := by
  have hne : ¬ (PRESSED ≠ b.lastReading) := by
    rw [hlr]
    simp
  have hPs : PRESSED ≠ b.state := by
    rw [hstate]
    simp [PRESSED, RELEASED]
  have hw : wsub now b.last_time < BUTTON_DOUBLECLICK_TIME := by
    rw [hlt]
    have hwz : wsub now 0 = now % UMOD := by
      simp [wsub]
    rw [hwz]
    have hmle : now % UMOD ≤ now := Nat.mod_le now UMOD
    omega
  have hPR : ¬ (PRESSED = RELEASED) := by decide
  simp only [updateButton, if_neg hpin, if_neg hne, if_pos hdeb, if_pos hPs,
    if_neg hPR, eq_self_iff_true, if_true]
  split <;> simp [decide_eq_true_eq, hw]

theorem wsub_small (a b : Nat) (h1 : b ≤ a) (h2 : a < UMOD) :
    wsub a b = a - b := by
  simp only [wsub, UMOD] at *
  omega

/-- A record whose `lastReading` field already reads `PRESSED` is untouched
by writing `PRESSED` there again. -/
theorem BState_eta_lastReading (b : BState) (h : b.lastReading = PRESSED) :
    ({ b with lastReading := PRESSED } : BState) = b := by
  rw [← h]

theorem holdSeg_add (a : Nat) : ∀ (t0 c : Nat),
    holdSeg t0 (a + c) = holdSeg t0 a ++ holdSeg (t0 + a) c := by
  induction a with
  | zero =>
    intro t0 c
    simp [holdSeg]
  | succ n ih =>
    intro t0 c
    rw [Nat.succ_add]
    show (t0, PRESSED) :: holdSeg (t0 + 1) (n + c) =
      ((t0, PRESSED) :: holdSeg (t0 + 1) n) ++ holdSeg (t0 + (n + 1)) c
    rw [List.cons_append, ih (t0 + 1) c]
    have he : t0 + 1 + n = t0 + (n + 1) := by omega
    rw [he]

theorem fireTimes_cons_nofire (hcb : Bool) (t r : Nat)
    (rest : List (Nat × Nat)) (b b' : BState)
    (h : updateButton hcb t r b = (b', false)) :
    fireTimes hcb ((t, r) :: rest) b = fireTimes hcb rest b' := by
  have he : fireTimes hcb ((t, r) :: rest) b =
      (let s := updateButton hcb t r b
       if s.2 then t :: fireTimes hcb rest s.1 else fireTimes hcb rest s.1) := rfl
  rw [he, h]
  simp

theorem fireTimes_cons_fire (hcb : Bool) (t r : Nat)
    (rest : List (Nat × Nat)) (b b' : BState)
    (h : updateButton hcb t r b = (b', true)) :
    fireTimes hcb ((t, r) :: rest) b = t :: fireTimes hcb rest b' := by
  have he : fireTimes hcb ((t, r) :: rest) b =
      (let s := updateButton hcb t r b
       if s.2 then t :: fireTimes hcb rest s.1 else fireTimes hcb rest s.1) := rfl
  rw [he, h]
  simp

/-- A poll reading `PRESSED` on a record already reading and resolved
`PRESSED` that is not yet due for a long-press fire changes nothing. -/
theorem steady_pressed (hcb : Bool) (t : Nat) (b : BState)
    (hpin : b.pin ≠ 255) (hlr : b.lastReading = PRESSED)
    (hstate : b.state = PRESSED)
    (hnofire : wsub t b.last_time < BUTTON_LONGPRESS_TIME ∨
      wsub t b.lastLongPressCallback < BUTTON_LONGPRESS_TIME) :
    updateButton hcb t PRESSED b = (b, false) := by
  have hne : ¬ (PRESSED ≠ b.lastReading) := by
    rw [hlr]
    simp
  have hns : ¬ (PRESSED ≠ b.state) := by
    rw [hstate]
    simp
  have hfire : (decide (BUTTON_LONGPRESS_TIME ≤ wsub t b.last_time) &&
      decide (BUTTON_LONGPRESS_TIME ≤ wsub t b.lastLongPressCallback)) = false := by
    rcases hnofire with hn | hn
    · have : decide (BUTTON_LONGPRESS_TIME ≤ wsub t b.last_time) = false := by
        simp only [decide_eq_false_iff_not]
        omega
      rw [this, Bool.false_and]
    · have : decide (BUTTON_LONGPRESS_TIME ≤ wsub t b.lastLongPressCallback) = false := by
        simp only [decide_eq_false_iff_not]
        omega
      rw [this, Bool.and_false]
  have hPR : ¬ (PRESSED = RELEASED) := by decide
  simp only [updateButton, if_neg hpin, if_neg hne, if_neg hns, ite_self,
    BState_eta_lastReading b hlr, if_neg hPR]
  rw [Bool.and_assoc, hfire, Bool.and_false]
  simp

/-- A poll reading `PRESSED` on a Released record whose raw reading has been
`PRESSED` for no longer than the debounce window changes nothing. -/
theorem steady_released (hcb : Bool) (t : Nat) (b : BState)
    (hpin : b.pin ≠ 255) (hlr : b.lastReading = PRESSED)
    (hstate : b.state = RELEASED)
    (hdeb : wsub t b.lastChangeTime ≤ BUTTON_DEBOUNCE_TIME) :
    updateButton hcb t PRESSED b = (b, false) := by
  have hne : ¬ (PRESSED ≠ b.lastReading) := by
    rw [hlr]
    simp
  have hd : ¬ (BUTTON_DEBOUNCE_TIME < wsub t b.lastChangeTime) := by omega
  have hsp : decide (b.state = PRESSED) = false := by
    rw [hstate]
    decide
  have hPR : ¬ (PRESSED = RELEASED) := by decide
  simp only [updateButton, if_neg hpin, if_neg hne, if_neg hd,
    BState_eta_lastReading b hlr, if_neg hPR, hsp]
  simp

/-- A run of steady polls (each one an identity step, firing nothing)
contributes no fire times and leaves the threaded record unchanged. -/
theorem fireTimes_steady (hcb : Bool) (len : Nat) : ∀ (t0 : Nat) (b : BState)
    (rest : List (Nat × Nat)),
    (∀ u, t0 ≤ u → u < t0 + len → updateButton hcb u PRESSED b = (b, false)) →
    fireTimes hcb (holdSeg t0 len ++ rest) b = fireTimes hcb rest b := by
  induction len with
  | zero =>
    intro t0 b rest h
    rfl
  | succ n ih =>
    intro t0 b rest h
    show fireTimes hcb (((t0, PRESSED) :: holdSeg (t0 + 1) n) ++ rest) b =
      fireTimes hcb rest b
    rw [List.cons_append,
      fireTimes_cons_nofire hcb t0 PRESSED (holdSeg (t0 + 1) n ++ rest) b b
        (h t0 (Nat.le_refl t0) (by omega))]
    exact ih (t0 + 1) b rest (fun u hu1 hu2 => h u (by omega) (by omega))

/-- Claim C3: with a long-press callback registered, raw input held at
Pressed and polled once per millisecond from clock 0, the press is registered
at t = 51 (first poll past the debounce window) and over the following
3 × LONGPRESS_WINDOW ms the callback fires exactly three times, at exactly
one-LONGPRESS_WINDOW intervals after registration (windows 1, 2, 3) — not
once, and not on every poll. -/
theorem longpress_cadence :
    fireTimes true (holdSeg 0 (3 * BUTTON_LONGPRESS_TIME + 52)) (freshButton 4) =
      [51 + BUTTON_LONGPRESS_TIME, 51 + 2 * BUTTON_LONGPRESS_TIME,
        51 + 3 * BUTTON_LONGPRESS_TIME] := by
  show fireTimes true (holdSeg 0 3052) (freshButton 4) = [1051, 2051, 3051]
  have hsplit : (3052 : Nat) =
      1 + (50 + (1 + (999 + (1 + (999 + (1 + (999 + 1))))))) := by norm_num
  rw [hsplit]
  simp only [holdSeg_add]
  norm_num
  have hone : ∀ t, holdSeg t 1 = [(t, PRESSED)] := fun t => rfl
  simp only [hone, List.cons_append, List.nil_append, List.singleton_append]
  have hUlt : ∀ u : Nat, u < 3052 → u < UMOD := by
    intro u hu
    simp only [UMOD]
    omega
  rw [fireTimes_cons_nofire true 0 PRESSED _ (freshButton 4)
    ⟨4, RELEASED, false, 0, 0, PRESSED, 0, 0, 255, none⟩ (by decide)]
  rw [fireTimes_steady true 50 1 ⟨4, RELEASED, false, 0, 0, PRESSED, 0, 0, 255, none⟩ _
    (by
      intro u hu1 hu2
      refine steady_released true u _ (by decide) rfl rfl ?_
      rw [wsub_zero u (hUlt u (by omega))]
      simp only [BUTTON_DEBOUNCE_TIME]
      omega)]
  rw [fireTimes_cons_nofire true 51 PRESSED _
    ⟨4, RELEASED, false, 0, 0, PRESSED, 0, 0, 255, none⟩
    ⟨4, PRESSED, true, 0, 51, PRESSED, 0, 0, 255, none⟩ (by decide)]
  rw [fireTimes_steady true 999 52 ⟨4, PRESSED, true, 0, 51, PRESSED, 0, 0, 255, none⟩ _
    (by
      intro u hu1 hu2
      refine steady_pressed true u _ (by decide) rfl rfl (Or.inl ?_)
      rw [wsub_small u 51 (by omega) (hUlt u (by omega))]
      simp only [BUTTON_LONGPRESS_TIME]
      omega)]
  rw [fireTimes_cons_fire true 1051 PRESSED _
    ⟨4, PRESSED, true, 0, 51, PRESSED, 0, 0, 255, none⟩
    ⟨4, PRESSED, true, 0, 51, PRESSED, 0, 1051, 255, none⟩ (by decide)]
  rw [fireTimes_steady true 999 1052 ⟨4, PRESSED, true, 0, 51, PRESSED, 0, 1051, 255, none⟩ _
    (by
      intro u hu1 hu2
      refine steady_pressed true u _ (by decide) rfl rfl (Or.inr ?_)
      rw [wsub_small u 1051 (by omega) (hUlt u (by omega))]
      simp only [BUTTON_LONGPRESS_TIME]
      omega)]
  rw [fireTimes_cons_fire true 2051 PRESSED _
    ⟨4, PRESSED, true, 0, 51, PRESSED, 0, 1051, 255, none⟩
    ⟨4, PRESSED, true, 0, 51, PRESSED, 0, 2051, 255, none⟩ (by decide)]
  rw [fireTimes_steady true 999 2052 ⟨4, PRESSED, true, 0, 51, PRESSED, 0, 2051, 255, none⟩ _
    (by
      intro u hu1 hu2
      refine steady_pressed true u _ (by decide) rfl rfl (Or.inr ?_)
      rw [wsub_small u 2051 (by omega) (hUlt u (by omega))]
      simp only [BUTTON_LONGPRESS_TIME]
      omega)]
  rw [fireTimes_cons_fire true 3051 PRESSED _
    ⟨4, PRESSED, true, 0, 51, PRESSED, 0, 2051, 255, none⟩
    ⟨4, PRESSED, true, 0, 51, PRESSED, 0, 3051, 255, none⟩ (by decide)]
  rfl

/-- Witness for C10: a fresh record whose raw input has been Low since clock
0, polled at clock 60 (debounce settled, still inside the double-click window
of clock zero): its very first press comes out double-flagged. -/
theorem first_press_double_witness :
    (earlyPressBtn.pin ≠ 255 ∧ earlyPressBtn.last_time = 0 ∧
      earlyPressBtn.state = RELEASED ∧ earlyPressBtn.lastReading = PRESSED ∧
      BUTTON_DEBOUNCE_TIME < wsub 60 earlyPressBtn.lastChangeTime ∧
      60 < BUTTON_DOUBLECLICK_TIME) ∧
    (updateButton false 60 PRESSED earlyPressBtn).1.doublePress = true :=
  ⟨⟨by decide, rfl, rfl, rfl, by decide, by decide⟩,
    first_press_double false 60 earlyPressBtn (by decide) rfl rfl rfl
      (by decide) (by decide)⟩
